import Mathlib

/-!
# Verification of the lagon isolate host against its specification

The repository ships the runtime's integration tests (`crates/runtime/tests/`)
and the CLI front-end (`crates/cli/src/commands/dev.rs`).  The isolate / event
loop implementation itself (crates `lagon_runtime_isolate`, `lagon_runtime_http`,
`lagon_runtime_utils`) is not part of the sampled source, so the event loop,
timers, microtasks and AsyncContext are modelled here from the specification
(§4.3, §4.5, §7) and exercised on the literal scripts of the tests.  The
front-end dispatch of `dev.rs` is embedded directly from its source.
-/

namespace Lagon

mutual

/-- Modelled from the spec: the script-visible JavaScript values the sampled
test scripts manipulate (`undefined`, booleans, numbers, strings, objects with
identity, function values).  Object identity is a tag; functions carry their
body. -/
inductive JSValue where
  | undef : JSValue
  | vBool : Bool → JSValue
  | vNum : Int → JSValue
  | vStr : String → JSValue
  | vObj : Nat → JSValue
  | vFun : List Stmt → JSValue

/-- Modelled from the spec: the expressions appearing in the test scripts.
`ctxGet c` is `ctx.get()` / `store.getStore()` for the AsyncContext instance
with identity `c` (§4.5). -/
inductive Expr where
  | lit : JSValue → Expr
  | evar : String → Expr
  | ctxGet : Nat → Expr
  | mul : Expr → Expr → Expr
  | eqq : Expr → Expr → Expr

/-- Modelled from the spec: the statement forms used by the handler scripts of
the tests.  `queueMicro e line col` is `queueMicrotask(e)` at source position
(line, col); `awaitNewPromise b ex` is `const b = await new Promise(ex)` where
inside `ex` (and in callbacks scheduled from it) `resolveP e` is `resolve(e)`;
`ctxRun b c v body r` is `const b = ctx.run(v, () => { body; return r })`
(§4.3 timer semantics, §4.5 AsyncContext). -/
inductive Stmt where
  | slog : Expr → Stmt
  | logPair : String → Expr → Stmt
  | bindVar : String → Expr → Stmt
  | incVar : String → Stmt
  | queueMicro : Expr → Nat → Nat → Stmt
  | promiseThen : List Stmt → Stmt
  | setTimeoutS : Option String → List Stmt → Nat → Stmt
  | setIntervalS : Option String → List Stmt → Nat → Stmt
  | clearTimer : Expr → Stmt
  | resolveP : Expr → Stmt
  | awaitNewPromise : Option String → List Stmt → Stmt
  | ctxRun : Option String → Nat → Expr → List Stmt → Expr → Stmt
  | ifNeThrow : Expr → Expr → String → Stmt
  | ifGeThen : Expr → Int → List Stmt → Stmt
  | retResponse : Expr → Stmt

end

/-- `RunResult` from crate `lagon_runtime_http`: tagged variant per spec §3;
`Response` carries the response body (status is always 200 in the scripts
modelled here), `Stream` metadata is irrelevant to the claims. -/
inductive RunResult where
  | Response : String → RunResult
  | Stream : RunResult
  | Error : String → RunResult
  | Timeout : RunResult
  | MemoryLimit : RunResult
deriving DecidableEq, Repr

/-- JS loose-to-string conversion used by `console.log` serialization and by
`new Response(x)` body coercion. -/
def jvToString : JSValue → String
  | .undef => "undefined"
  | .vBool true => "true"
  | .vBool false => "false"
  | .vNum n => toString n
  | .vStr s => s
  | .vObj _ => "[object Object]"
  | .vFun _ => "function"

/-- JS strict equality (`===`) on the values compared by the test scripts.
Object equality is identity; distinct function closures are never equal. -/
def jvEq : JSValue → JSValue → Bool
  | .undef, .undef => true
  | .vBool a, .vBool b => a == b
  | .vNum a, .vNum b => a == b
  | .vStr a, .vStr b => a == b
  | .vObj a, .vObj b => a == b
  | _, _ => false

/-- Increment used for `x++` on numbers. -/
def jvInc : JSValue → JSValue
  | .vNum n => .vNum (n + 1)
  | v => v

/-- An AsyncContext frame (§4.5): an immutable mapping from AsyncContext
identity to bound value, represented as an association list whose head
shadows deeper entries. -/
def Frame := List (Nat × JSValue)

/-- `ctx.get()`: the current frame's value for `ctx`, or `undefined` (§4.5). -/
def lookupFrame : Frame → Nat → JSValue
  | [], _ => .undef
  | (c, v) :: f, d => if c = d then v else lookupFrame f d

/-- Script variable environment (module-level `let`/`const` plus handler
locals; persists across requests as the isolate keeps one context). -/
def Vars := List (String × JSValue)

def lookupVar : Vars → String → JSValue
  | [], _ => .undef
  | (x, v) :: l, y => if x = y then v else lookupVar l y

/-- Expression evaluation; reads the active frame and the variables. -/
def evalExpr (fr : Frame) (vs : Vars) : Expr → JSValue
  | .lit v => v
  | .evar x => lookupVar vs x
  | .ctxGet c => lookupFrame fr c
  | .mul a b =>
    match evalExpr fr vs a, evalExpr fr vs b with
    | .vNum m, .vNum n => .vNum (m * n)
    | _, _ => .undef
  | .eqq a b => .vBool (jvEq (evalExpr fr vs a) (evalExpr fr vs b))

/-- A queued microtask: the callback body plus the AsyncContext frame and the
resolver target captured at schedule time (§4.5). -/
structure Task where
  body : List Stmt
  frame : Frame
  resTarget : Option Nat

/-- A pending promise reaction: the continuation registered by `await`,
with its binder, frame and resolver target captured at schedule time. -/
structure Reaction where
  bind : Option String
  body : List Stmt
  frame : Frame
  resTarget : Option Nat

/-- Promise state: pending with registered reactions, or resolved. -/
inductive PromState where
  | pending : List Reaction → PromState
  | resolved : JSValue → PromState

/-- A Timer per spec §3: id (monotonic per isolate), due time, period (0 for
one-shot), callback body, the AsyncContext frame captured at registration,
the resolver target captured at registration, and an insertion sequence
number used to break due-time ties by insertion order (§4.3). -/
structure Timer where
  id : Nat
  due : Nat
  period : Nat
  body : List Stmt
  frame : Frame
  resTarget : Option Nat
  seq : Nat

/-- The isolate state driving one request: active frame, variables, microtask
queue, timer queue, promise table, allocation counters, monotonic clock, the
per-request wall-clock deadline (§4.3 step 1: request budget), the log
channel records, the terminal result and the reply-channel contents
(§4.3). -/
structure State where
  frame : Frame
  vars : Vars
  micro : List Task
  timers : List Timer
  promises : List (Nat × PromState)
  nextTimerId : Nat
  nextPromiseId : Nat
  nextSeq : Nat
  now : Nat
  deadline : Nat
  logs : List String
  result : Option RunResult
  sent : List RunResult

/-- Initial isolate state; the wall-clock budget is the 1s default of
`IsolateOptions` (spec §3), which dev.rs also sets explicitly. -/
def State.init : State :=
  { frame := [], vars := [], micro := [], timers := [], promises := [],
    nextTimerId := 1, nextPromiseId := 0, nextSeq := 0, now := 0,
    deadline := 1000, logs := [], result := none, sent := [] }

/-- Emit a terminal `RunResult` on the request's reply channel; a result for a
request is emitted at most once (spec §3 invariant 4), so a second settlement
is a no-op. -/
def emit (st : State) (r : RunResult) : State :=
  if st.result.isSome then st
  else { st with result := some r, sent := st.sent ++ [r] }

/-- The reply-channel contents determined by the terminal result: one record
when the request settled, nothing before. -/
def sentOf : Option RunResult → List RunResult
  | some r => [r]
  | none => []

/-- The reply-channel invariant (spec §3 invariant 4, §8): the records emitted
on a request's reply channel are exactly its terminal result. -/
def Inv (st : State) : Prop := st.sent = sentOf st.result

/-- The error message for `queueMicrotask` with a non-function argument:
`TypeError: Parameter 1 is not of type 'Function'` raised synchronously at the
call site, surfaced as `Uncaught <Name>: <text>\n  at <frame> (<line>:<col>)`
with 1-based line:col into the user source (spec §4.3, §7). -/
def typeErrorMsg (line col : Nat) : String :=
  "Uncaught TypeError: Parameter 1 is not of type 'Function'" ++
    "\n  at handler (" ++ toString line ++ ":" ++ toString col ++ ")"

def lookupProm : List (Nat × PromState) → Nat → Option PromState
  | [], _ => none
  | (p, s) :: l, q => if p = q then some s else lookupProm l q

def setProm : List (Nat × PromState) → Nat → PromState → List (Nat × PromState)
  | [], _, _ => []
  | (p, s) :: l, q, s' => if p = q then (q, s') :: l else (p, s) :: setProm l q s'

/-- `clearTimeout` / `clearInterval` on the timer queue: remove the timer with
the given id if present; an unknown id is a no-op (spec §3 invariant 1). -/
def clearTimerFn (n : Int) (ts : List Timer) : List Timer :=
  ts.filter (fun t => ((t.id : Int) != n))

/-- Prefix the resolved value binding onto a continuation body. -/
def mkBody (bind : Option String) (v : JSValue) (body : List Stmt) : List Stmt :=
  match bind with
  | some x => .bindVar x (.lit v) :: body
  | none => body

/-- Modelled from the spec: synchronous execution of script statements inside
the isolate (`lagon_runtime_isolate`, not in src/).  `res` is the resolver
target captured by the enclosing closure.  Returns the new state and whether
control stopped (suspension at `await`, `return`, or an uncaught throw).
Scheduling points (`setTimeout`, `setInterval`, `queueMicrotask`, promise
reactions, `await` continuations) capture the current frame (§4.5). -/
def execStmts : Nat → Option Nat → List Stmt → State → State × Bool
  | 0, _, _, st => (st, true)
  | _ + 1, _, [], st => (st, false)
  | fuel + 1, res, s :: rest, st =>
    match s with
    | .slog e =>
      execStmts fuel res rest
        { st with logs := st.logs ++ [jvToString (evalExpr st.frame st.vars e)] }
    | .logPair pre e =>
      execStmts fuel res rest
        { st with logs :=
            st.logs ++ [pre ++ " " ++ jvToString (evalExpr st.frame st.vars e)] }
    | .bindVar x e =>
      execStmts fuel res rest
        { st with vars := (x, evalExpr st.frame st.vars e) :: st.vars }
    | .incVar x =>
      execStmts fuel res rest
        { st with vars := (x, jvInc (lookupVar st.vars x)) :: st.vars }
    | .queueMicro f line col =>
      match evalExpr st.frame st.vars f with
      | .vFun body =>
        execStmts fuel res rest
          { st with micro := st.micro ++ [⟨body, st.frame, res⟩] }
      | _ => (emit st (.Error (typeErrorMsg line col)), true)
    | .promiseThen body =>
      execStmts fuel res rest
        { st with micro := st.micro ++ [⟨body, st.frame, res⟩] }
    | .setTimeoutS b body d =>
      let t : Timer :=
        ⟨st.nextTimerId, st.now + d, 0, body, st.frame, res, st.nextSeq⟩
      execStmts fuel res rest
        { st with timers := st.timers ++ [t],
                  nextTimerId := st.nextTimerId + 1, nextSeq := st.nextSeq + 1,
                  vars := match b with
                    | some x => (x, .vNum (st.nextTimerId : Int)) :: st.vars
                    | none => st.vars }
    | .setIntervalS b body d =>
      let t : Timer :=
        ⟨st.nextTimerId, st.now + d, d, body, st.frame, res, st.nextSeq⟩
      execStmts fuel res rest
        { st with timers := st.timers ++ [t],
                  nextTimerId := st.nextTimerId + 1, nextSeq := st.nextSeq + 1,
                  vars := match b with
                    | some x => (x, .vNum (st.nextTimerId : Int)) :: st.vars
                    | none => st.vars }
    | .clearTimer e =>
      match evalExpr st.frame st.vars e with
      | .vNum n => execStmts fuel res rest { st with timers := clearTimerFn n st.timers }
      | _ => execStmts fuel res rest st
    | .resolveP e =>
      let v := evalExpr st.frame st.vars e
      match res with
      | none => execStmts fuel res rest st
      | some p =>
        match lookupProm st.promises p with
        | some (.pending rs) =>
          execStmts fuel res rest
            { st with promises := setProm st.promises p (.resolved v),
                      micro := st.micro ++
                        rs.map (fun r => ⟨mkBody r.bind v r.body, r.frame, r.resTarget⟩) }
        | _ => execStmts fuel res rest st
    | .awaitNewPromise b executor =>
      let p := st.nextPromiseId
      let st1 := { st with promises := st.promises ++ [(p, .pending [])],
                           nextPromiseId := p + 1 }
      let (st2, stopped) := execStmts fuel (some p) executor st1
      if stopped then (st2, true)
      else
        match lookupProm st2.promises p with
        | some (.resolved v) =>
          ({ st2 with micro := st2.micro ++ [⟨mkBody b v rest, st2.frame, res⟩] }, true)
        | some (.pending rs) =>
          let ps := setProm st2.promises p (.pending (rs ++ [⟨b, rest, st2.frame, res⟩]))
          ({ st2 with promises := ps }, true)
        | none => (st2, true)
    | .ctxRun b c value body resE =>
      let v := evalExpr st.frame st.vars value
      let saved := st.frame
      let (st1, stopped) := execStmts fuel res body { st with frame := (c, v) :: st.frame }
      let rv := evalExpr st1.frame st1.vars resE
      let st2 := { st1 with frame := saved,
                            vars := match b with
                              | some x => (x, rv) :: st1.vars
                              | none => st1.vars }
      if stopped then (st2, true) else execStmts fuel res rest st2
    | .ifNeThrow a b msg =>
      if jvEq (evalExpr st.frame st.vars a) (evalExpr st.frame st.vars b) then
        execStmts fuel res rest st
      else (emit st (.Error ("Uncaught Error: " ++ msg)), true)
    | .ifGeThen a n body =>
      match evalExpr st.frame st.vars a with
      | .vNum m =>
        if n ≤ m then
          let (st1, stopped) := execStmts fuel res body st
          if stopped then (st1, true) else execStmts fuel res rest st1
        else execStmts fuel res rest st
      | _ => execStmts fuel res rest st
    | .retResponse e =>
      (emit st (.Response (jvToString (evalExpr st.frame st.vars e))), true)

/-- Strict (due, seq) lexicographic order on timers: due-time order with ties
broken by insertion order (§4.3). -/
def timerLt (a b : Timer) : Bool :=
  a.due < b.due || (a.due == b.due && a.seq < b.seq)

def pickMin : List Timer → Option Timer
  | [] => none
  | t :: ts =>
    match pickMin ts with
    | none => some t
    | some u => if timerLt u t then some u else some t

/-- The next timer to fire in a tick: among timers with `due ≤ tnow` that were
already inserted when the firing phase began (`seq < cutoff`), the minimal one
by (due, insertion).  Excluding timers inserted during the phase is what makes
a repeating timer fire at most once per tick (§4.3: never batched). -/
def pickDue (cutoff tnow : Nat) (ts : List Timer) : Option Timer :=
  pickMin (ts.filter (fun t => t.due ≤ tnow && t.seq < cutoff))

def minDue : List Timer → Option Nat
  | [] => none
  | t :: ts =>
    match minDue ts with
    | none => some t.due
    | some d => some (min t.due d)

/-- Modelled from the spec: the timer-firing phase of one event-loop tick
(§4.3): fire all timers with `due ≤ now` in strict due-time order, ties by
insertion order; repeating timers are re-inserted with `due = now + period`
and a fresh sequence number (so they are not re-fired within the phase); the
callback runs under the frame captured at registration (§4.5). -/
def firePhase : Nat → Nat → Nat → State → State
  | 0, _, _, st => st
  | fuel + 1, cutoff, tnow, st =>
    if st.result.isSome then st
    else
      match pickDue cutoff tnow st.timers with
      | none => st
      | some t =>
        let remaining := st.timers.filter (fun u => u.seq ≠ t.seq)
        let rearmed := remaining ++ [{ t with due := tnow + t.period, seq := st.nextSeq }]
        let st1 :=
          if t.period > 0 then
            { st with timers := rearmed, nextSeq := st.nextSeq + 1 }
          else { st with timers := remaining }
        let (st2, _) := execStmts (fuel + 1) t.resTarget t.body { st1 with frame := t.frame }
        firePhase fuel cutoff tnow st2

/-- Modelled from the spec: the event-loop driver (`run_event_loop`, §4.3).
Within a tick: drain the microtask queue to quiescence — each microtask runs
under the frame captured at schedule time — then fire all due timers; the
clock advances by at least one unit per tick (each tick takes wall-clock
time), jumping to the next due time when waiting on a timer.  §4.3 step 3 /
§4.4 quota check: once the wall clock passes the request deadline the engine
interrupt fires and the request settles with `Timeout`; likewise when an
unsettled request has no scheduled work left, or when its next timer is due
only after the deadline, the interrupt is what fires next.  The loop stops as
soon as the terminal result has been emitted. -/
def runLoop : Nat → State → State
  | 0, st => st
  | fuel + 1, st =>
    if st.result.isSome then st
    else if st.deadline < st.now then emit st .Timeout
    else
      match st.micro with
      | task :: restQ =>
        let (st1, _) := execStmts (fuel + 1) task.resTarget task.body
          { st with micro := restQ, frame := task.frame, now := st.now + 1 }
        runLoop fuel st1
      | [] =>
        match minDue st.timers with
        | none => emit st .Timeout
        | some d =>
          if st.deadline < d then emit st .Timeout
          else
            let tnow := max (st.now + 1) d
            let st1 := firePhase (fuel + 1) st.nextSeq tnow { st with now := tnow }
            runLoop fuel st1

/-- Modelled from the spec: the i-th receive on a request's reply channel
after the request finished.  The channel is single-producer single-consumer
and the sender is dropped when the isolate is done with the request, so a
receive past the emitted records fails (`none`), as the tests observe with
`rx.recv_async().await.is_err()`. -/
def recv (st : State) (i : Nat) : Option RunResult :=
  st.sent.get? i

/-- Modelled from the spec: per-request execution (§4.3).  The request starts
with the empty frame, an empty microtask queue and no timers; the handler body
runs synchronously, then the event loop drives it until the terminal result is
emitted; timers still pending when the response is sent are discarded.
Variables (module state) and the promise table persist on the isolate. -/
def runRequest (fuel : Nat) (handler : List Stmt) (st : State) : State :=
  let st0 := { st with frame := [], micro := [], timers := [], now := 0,
                       logs := [], result := none, sent := [] }
  let st1 := (execStmts fuel none handler st0).1
  runLoop fuel st1

/-- Modelled from the spec: isolate evaluation plus one request (§4.3
`evaluate`): module-level code runs first; if it throws, the isolate is
poisoned and the request fails with that error; otherwise the handler runs. -/
def runIsolate (fuel : Nat) (init handler : List Stmt) : Option RunResult :=
  let st := (execStmts fuel none init State.init).1
  match st.result with
  | some (.Error e) => some (.Error e)
  | _ => (runRequest fuel handler st).result

/-! ## The literal handler scripts of the cited tests -/

/-- The handler of test `timers_order` (timers.rs:241): `queueMicrotask` at
source position 2:5, `Promise.resolve().then`, `console.log('main')`,
`await new Promise(resolve => setTimeout(..., 0))`, `console.log('main 2')`,
`return new Response('Hello world')`. -/
def timersOrderHandler : List Stmt := [
  .queueMicro (.lit (.vFun [.slog (.lit (.vStr "microtask"))])) 2 5,
  .promiseThen [.slog (.lit (.vStr "promise"))],
  .slog (.lit (.vStr "main")),
  .awaitNewPromise none
    [.setTimeoutS none [.slog (.lit (.vStr "timeout")), .resolveP (.lit .undef)] 0],
  .slog (.lit (.vStr "main 2")),
  .retResponse (.lit (.vStr "Hello world"))
]

/-- The handler of test `set_timeout` (timers.rs:12): awaits a promise
resolved with "test" by a 100ms timer and returns it as the response. -/
def setTimeoutHandler : List Stmt := [
  .awaitNewPromise (some "test")
    [ .setTimeoutS none [.resolveP (.lit (.vStr "test"))] 100 ],
  .retResponse (.evar "test")
]

/-- The handler of test `set_timeout_not_blocking_response` (timers.rs:41):
logs "before", schedules a 100ms timer logging "done", logs "after", returns
`new Response('Hello!')` with the timer still pending. -/
def notBlockingHandler : List Stmt := [
  .slog (.lit (.vStr "before")),
  .setTimeoutS none [.slog (.lit (.vStr "done"))] 100,
  .slog (.lit (.vStr "after")),
  .retResponse (.lit (.vStr "Hello!"))
]

/-- The handler of test `set_timeout_clear` (timers.rs:73): the first timer
(100ms, resolving "first") is cleared by its id; the second (200ms, "second")
remains. -/
def setTimeoutClearHandler : List Stmt := [
  .awaitNewPromise (some "test")
    [ .setTimeoutS (some "id") [.resolveP (.lit (.vStr "first"))] 100,
      .setTimeoutS none [.resolveP (.lit (.vStr "second"))] 200,
      .clearTimer (.evar "id") ],
  .retResponse (.evar "test")
]

/-- The handler of test `set_timeout_clear_correct` (timers.rs:105): the
second timer (200ms, "second") is cleared by its id; the first (100ms,
"first") remains. -/
def setTimeoutClearCorrectHandler : List Stmt := [
  .awaitNewPromise (some "test")
    [ .setTimeoutS none [.resolveP (.lit (.vStr "first"))] 100,
      .setTimeoutS (some "id") [.resolveP (.lit (.vStr "second"))] 200,
      .clearTimer (.evar "id") ],
  .retResponse (.evar "test")
]

/-- The handler of test `set_interval` (timers.rs:138): a 100ms interval
counts up, logging `console.log('interval', count)`; at count 3 it clears
itself and resolves the awaited promise; then "res" is logged and
`new Response('Hello world')` returned. -/
def setIntervalHandler : List Stmt := [
  .awaitNewPromise none
    [ .bindVar "count" (.lit (.vNum 0)),
      .setIntervalS (some "iid")
        [ .incVar "count",
          .logPair "interval" (.evar "count"),
          .ifGeThen (.evar "count") 3
            [ .clearTimer (.evar "iid"), .resolveP (.lit .undef) ] ]
        100 ],
  .slog (.lit (.vStr "res")),
  .retResponse (.lit (.vStr "Hello world"))
]

/-- The handler of test `queue_microtask_throw_not_function` (timers.rs:213):
`queueMicrotask(true)` at source line 2, column 5, then
`return new Response('Hello world')`. -/
def queueMicrotaskThrowHandler : List Stmt := [
  .queueMicro (.lit (.vBool true)) 2 5,
  .retResponse (.lit (.vStr "Hello world"))
]

/-- Module-level code of test `timers` in async_context.rs:181:
`const store = new AsyncLocalStorage(); let id = 1;` — the store is the
AsyncContext instance with identity 0. -/
def alsTimersInit : List Stmt := [ .bindVar "id" (.lit (.vNum 1)) ]

/-- The handler of test `timers` (async_context.rs:183):
`const result = store.run(id++, () => { setTimeout(() =>
console.log(store.getStore() * 2), 100); return store.getStore() * 2 });
await new Promise(resolve => setTimeout(resolve, 150));
return new Response(result)`.  `id++` is desugared into a read of `id`
followed by its increment. -/
def alsTimersHandler : List Stmt := [
  .bindVar "tmpid" (.evar "id"),
  .incVar "id",
  .ctxRun (some "result") 0 (.evar "tmpid")
    [ .setTimeoutS none [.slog (.mul (.ctxGet 0) (.lit (.vNum 2)))] 100 ]
    (.mul (.ctxGet 0) (.lit (.vNum 2))),
  .awaitNewPromise none [.setTimeoutS none [.resolveP (.lit .undef)] 150],
  .retResponse (.evar "result")
]

/-- Isolate state after evaluating the `timers` test module code. -/
def alsSt0 : State := (execStmts 100 none alsTimersInit State.init).1

/-- Isolate state after the first request of the `timers` test. -/
def alsSt1 : State := runRequest 200 alsTimersHandler alsSt0

/-- Isolate state after the second request of the `timers` test. -/
def alsSt2 : State := runRequest 200 alsTimersHandler alsSt1

/-- Module-level code of test `get_within_nesting_contexts`
(async_context.rs:87): nested `ctx.run` with objects `first` and `second`,
with the test's `if (ctx.get() !== …) throw` checks. -/
def nestingInit : List Stmt := [
  .ctxRun none 0 (.lit (.vObj 1))
    [ .ifNeThrow (.ctxGet 0) (.lit (.vObj 1)) "Expected first",
      .ctxRun none 0 (.lit (.vObj 2))
        [ .ifNeThrow (.ctxGet 0) (.lit (.vObj 2)) "Expected second" ] (.lit .undef),
      .ifNeThrow (.ctxGet 0) (.lit (.vObj 1)) "Expected first" ] (.lit .undef),
  .ifNeThrow (.ctxGet 0) (.lit .undef) "Expected undefined"
]

/-- Module-level code of test `get_within_nesting_different_contexts`
(async_context.rs:127): `a` is context 0, `b` is context 1. -/
def nestingDiffInit : List Stmt := [
  .ctxRun none 0 (.lit (.vObj 1))
    [ .ifNeThrow (.ctxGet 0) (.lit (.vObj 1)) "Expected first",
      .ifNeThrow (.ctxGet 1) (.lit .undef) "Expected undefined",
      .ctxRun none 1 (.lit (.vObj 2))
        [ .ifNeThrow (.ctxGet 0) (.lit (.vObj 1)) "Expected first",
          .ifNeThrow (.ctxGet 1) (.lit (.vObj 2)) "Expected second" ] (.lit .undef),
      .ifNeThrow (.ctxGet 0) (.lit (.vObj 1)) "Expected first",
      .ifNeThrow (.ctxGet 1) (.lit .undef) "Expected undefined" ] (.lit .undef),
  .ifNeThrow (.ctxGet 0) (.lit .undef) "Expected undefined",
  .ifNeThrow (.ctxGet 1) (.lit .undef) "Expected undefined"
]

/-- Module-level code of test `return_value` (async_context.rs:35):
`const expected = { id: 1 }; const actual = ctx.run({ id: 2 }, () =>
expected); if (actual !== expected) throw ...`. -/
def returnValueInit : List Stmt := [
  .bindVar "expected" (.lit (.vObj 1)),
  .ctxRun (some "actual") 0 (.lit (.vObj 2)) [] (.evar "expected"),
  .ifNeThrow (.evar "actual") (.evar "expected") "Expected expected"
]

/-- Handler returning `new Response()` (empty body), shared by the
async-context tests. -/
def emptyRespHandler : List Stmt := [ .retResponse (.lit (.vStr "")) ]

/-! ## The front-end dispatch of `dev.rs` -/

/-- The HTTP `Request` as seen by `handle_request`: its header multimap. -/
structure HttpRequest where
  headers : List (String × String)

/-- Modelled from the spec: `Request::set_header` (crate `lagon_runtime_http`,
not in src/) — the host injects a header on the request before delivery
(spec §3 Request). -/
def set_header (r : HttpRequest) (k v : String) : HttpRequest :=
  { r with headers := (k, v) :: r.headers }

/-- Header lookup on a request (first entry for the key). -/
def get_header (r : HttpRequest) (k : String) : Option String :=
  (r.headers.find? (fun p => p.1 == k)).map (·.2)

/-- The `X_FORWARDED_FOR` header name of crate `lagon_runtime_http`
(spec §6: the front-end injects `x-forwarded-for` with the client IP). -/
def X_FORWARDED_FOR : String := "x-forwarded-for"

/-- The `X_LAGON_REGION` header name of crate `lagon_runtime_http`
(spec §6: the front-end injects `x-lagon-region: local`). -/
def X_LAGON_REGION : String := "x-lagon-region"

/-- `LOCAL_REGION` from dev.rs:29. -/
def LOCAL_REGION : String := "local"

/-- `FAVICON_URL` of crate `lagon_runtime_utils` (spec §6: the path
`/favicon.ico`). -/
def FAVICON_URL : String := "/favicon.ico"

/-- Modelled from the spec: `find_asset` (crate `lagon_runtime_utils`, not in
src/) — whether the path matches an entry in the asset manifest (spec §6). -/
def find_asset (url : String) (assets : List String) : Bool :=
  assets.contains url

/-- Where `handle_request` routed the request. -/
inductive Dispatch where
  | asset : Dispatch
  | favicon : Dispatch
  | isolate : HttpRequest → Dispatch
  | parseError : Dispatch

/-- The dispatch logic of `handle_request` (dev.rs:78-137): an asset match is
served directly; otherwise `/favicon.ico` gets a 404; otherwise, when
`Request::from_hyper` succeeds, `x-forwarded-for` is set to the client IP and
`x-lagon-region` to "local" before the request is submitted on the isolate's
request channel. -/
def handle_request (url ip : String) (assets : List String)
    (parsed : Option HttpRequest) : Dispatch :=
  if find_asset url assets then .asset
  else if url == FAVICON_URL then .favicon
  else
    match parsed with
    | some req =>
      .isolate (set_header (set_header req X_FORWARDED_FOR ip) X_LAGON_REGION LOCAL_REGION)
    | none => .parseError

/-! ## Helper lemmas -/

/-- `emit` preserves the reply-channel invariant: a first settlement records
exactly one result; later settlements are dropped. -/
theorem inv_emit (st : State) (r : RunResult) (h : Inv st) : Inv (emit st r) := by
  unfold emit
  split
  · exact h
  · rename_i hns
    have hz : st.result = none := by
      cases hr : st.result with
      | none => rfl
      | some x => rw [hr] at hns; simp at hns
    unfold Inv at h ⊢
    rw [hz] at h
    simp [sentOf] at h
    simp [sentOf, h]

/-- Synchronous script execution preserves the reply-channel invariant: every
settlement goes through `emit`. -/
theorem execStmts_inv : ∀ (fuel : Nat) (res : Option Nat) (code : List Stmt) (st : State),
    Inv st → Inv (execStmts fuel res code st).1 := by
  intro fuel
  induction fuel with
  | zero => intro res code st h; exact h
  | succ n ih =>
    intro res code st h
    cases code with
    | nil => exact h
    | cons s rest =>
      cases s with
      | slog e => exact ih _ _ _ h
      | logPair p e => exact ih _ _ _ h
      | bindVar x e => exact ih _ _ _ h
      | incVar x => exact ih _ _ _ h
      | queueMicro f line col =>
        simp only [execStmts]
        split
        · exact ih _ _ _ h
        · exact inv_emit _ _ h
      | promiseThen body => exact ih _ _ _ h
      | setTimeoutS b body d => exact ih _ _ _ h
      | setIntervalS b body d => exact ih _ _ _ h
      | clearTimer e =>
        simp only [execStmts]
        split
        · exact ih _ _ _ h
        · exact ih _ _ _ h
      | resolveP e =>
        simp only [execStmts]
        split
        · exact ih _ _ _ h
        · split
          · exact ih _ _ _ h
          · exact ih _ _ _ h
      | awaitNewPromise b ex =>
        simp only [execStmts]
        split
        · exact ih _ _ _ h
        · split
          · exact ih _ _ _ h
          · exact ih _ _ _ h
          · exact ih _ _ _ h
      | ctxRun b c ve body re =>
        simp only [execStmts]
        split
        · exact ih _ _ _ h
        · exact ih _ _ _ (ih _ _ _ h)
      | ifNeThrow a bb msg =>
        simp only [execStmts]
        split
        · exact ih _ _ _ h
        · exact inv_emit _ _ h
      | ifGeThen a bound body =>
        simp only [execStmts]
        split
        · split
          · split
            · exact ih _ _ _ h
            · exact ih _ _ _ (ih _ _ _ h)
          · exact ih _ _ _ h
        · exact ih _ _ _ h
      | retResponse e => exact inv_emit _ _ h

/-- The timer-firing phase preserves the reply-channel invariant. -/
theorem firePhase_inv : ∀ (fuel cutoff tnow : Nat) (st : State),
    Inv st → Inv (firePhase fuel cutoff tnow st) := by
  intro fuel
  induction fuel with
  | zero => intro _ _ _ h; exact h
  | succ n ih =>
    intro cutoff tnow st h
    simp only [firePhase]
    split
    · exact h
    · split
      · exact h
      · split
        · exact ih _ _ _ (execStmts_inv _ _ _ _ h)
        · exact ih _ _ _ (execStmts_inv _ _ _ _ h)

/-- The event-loop driver preserves the reply-channel invariant. -/
theorem runLoop_inv : ∀ (fuel : Nat) (st : State), Inv st → Inv (runLoop fuel st) := by
  intro fuel
  induction fuel with
  | zero => intro st h; exact h
  | succ n ih =>
    intro st h
    simp only [runLoop]
    split
    · exact h
    · split
      · exact inv_emit _ _ h
      · split
        · exact ih _ (execStmts_inv _ _ _ _ h)
        · split
          · exact inv_emit _ _ h
          · split
            · exact inv_emit _ _ h
            · exact ih _ (firePhase_inv _ _ _ _ h)

/-- `emit` always leaves the request settled: either it was already, or the
emitted record settles it. -/
theorem emit_isSome (st : State) (r : RunResult) : ((emit st r).result).isSome = true := by
  unfold emit
  split
  · assumption
  · simp

/-- `emit` never touches the clock or the deadline. -/
theorem emit_time (st : State) (r : RunResult) :
    (emit st r).now = st.now ∧ (emit st r).deadline = st.deadline := by
  unfold emit
  split <;> exact ⟨rfl, rfl⟩

/-- Script execution never touches the clock or the deadline: the driver owns
both (§4.4: budgets are enforced by the host, not by script actions). -/
theorem execStmts_time : ∀ (fuel : Nat) (res : Option Nat) (code : List Stmt) (st : State),
    ((execStmts fuel res code st).1).now = st.now ∧
    ((execStmts fuel res code st).1).deadline = st.deadline := by
  intro fuel
  induction fuel with
  | zero => intro res code st; exact ⟨rfl, rfl⟩
  | succ n ih =>
    intro res code st
    cases code with
    | nil => exact ⟨rfl, rfl⟩
    | cons s rest =>
      cases s with
      | slog e => exact ih _ _ _
      | logPair p e => exact ih _ _ _
      | bindVar x e => exact ih _ _ _
      | incVar x => exact ih _ _ _
      | queueMicro f line col =>
        simp only [execStmts]
        split
        · exact ih _ _ _
        · exact emit_time _ _
      | promiseThen body => exact ih _ _ _
      | setTimeoutS b body d => exact ih _ _ _
      | setIntervalS b body d => exact ih _ _ _
      | clearTimer e =>
        simp only [execStmts]
        split
        · exact ih _ _ _
        · exact ih _ _ _
      | resolveP e =>
        simp only [execStmts]
        split
        · exact ih _ _ _
        · split
          · exact ih _ _ _
          · exact ih _ _ _
      | awaitNewPromise b ex =>
        simp only [execStmts]
        split
        · exact ih _ _ _
        · split
          · exact ih _ _ _
          · exact ih _ _ _
          · exact ih _ _ _
      | ctxRun b c ve body re =>
        simp only [execStmts]
        split
        · exact ih _ _ _
        · exact ⟨((ih _ _ _).1).trans (ih _ _ _).1, ((ih _ _ _).2).trans (ih _ _ _).2⟩
      | ifNeThrow a bb msg =>
        simp only [execStmts]
        split
        · exact ih _ _ _
        · exact emit_time _ _
      | ifGeThen a bound body =>
        simp only [execStmts]
        split
        · split
          · split
            · exact ih _ _ _
            · exact ⟨((ih _ _ _).1).trans (ih _ _ _).1, ((ih _ _ _).2).trans (ih _ _ _).2⟩
          · exact ih _ _ _
        · exact ih _ _ _
      | retResponse e => exact emit_time _ _

/-- The timer-firing phase never touches the clock or the deadline. -/
theorem firePhase_time : ∀ (fuel cutoff tnow : Nat) (st : State),
    (firePhase fuel cutoff tnow st).now = st.now ∧
    (firePhase fuel cutoff tnow st).deadline = st.deadline := by
  intro fuel
  induction fuel with
  | zero => intro _ _ _; exact ⟨rfl, rfl⟩
  | succ n ih =>
    intro cutoff tnow st
    simp only [firePhase]
    split
    · exact ⟨rfl, rfl⟩
    · split
      · exact ⟨rfl, rfl⟩
      · split
        · exact ⟨((ih _ _ _).1).trans (execStmts_time _ _ _ _).1,
                 ((ih _ _ _).2).trans (execStmts_time _ _ _ _).2⟩
        · exact ⟨((ih _ _ _).1).trans (execStmts_time _ _ _ _).1,
                 ((ih _ _ _).2).trans (execStmts_time _ _ _ _).2⟩

/-- The quota check guarantees settlement (§4.3 step 3, §4.4): every event
loop given more fuel than the remaining budget settles the request — each
tick either settles (handler settlement, or the `Timeout` interrupt once the
deadline has passed, the work has run dry, or the next timer is due beyond
the budget) or advances the clock. -/
theorem runLoop_settles : ∀ (fuel : Nat) (st : State),
    st.deadline < st.now + fuel → ((runLoop (fuel + 1) st).result).isSome = true := by
  intro fuel
  induction fuel with
  | zero =>
    intro st h
    simp only [runLoop]
    split
    · assumption
    · split
      · exact emit_isSome _ _
      · rename_i hq
        exact absurd (by omega) hq
  | succ k ih =>
    intro st h
    simp only [runLoop]
    split
    · assumption
    · split
      · exact emit_isSome _ _
      · split
        · rename_i task restQ heq
          refine ih _ ?_
          have ht := execStmts_time (k + 2) task.resTarget task.body
            { st with micro := restQ, frame := task.frame, now := st.now + 1 }
          rw [ht.1, ht.2]
          show st.deadline < st.now + 1 + k
          omega
        · split
          · exact emit_isSome _ _
          · split
            · exact emit_isSome _ _
            · rename_i d hd hnd
              refine ih _ ?_
              have ht := firePhase_time (k + 2) st.nextSeq (max (st.now + 1) d)
                { st with now := max (st.now + 1) d }
              rw [ht.1, ht.2]
              show st.deadline < max (st.now + 1) d + k
              have hm : st.now + 1 ≤ max (st.now + 1) d := Nat.le_max_left _ _
              omega

/-- One `console.log` statement appends one record to the log channel. -/
theorem execStmts_slog (fuel : Nat) (res : Option Nat) (e : Expr) (st : State) :
    (execStmts (fuel + 1) res [.slog e] st).1
      = { st with logs := st.logs ++ [jvToString (evalExpr st.frame st.vars e)] } := by
  cases fuel <;> rfl

/-- The firing phase is the identity when the timer queue is empty. -/
theorem firePhase_noTimers (fuel cutoff tnow : Nat) (st : State) (h : st.timers = []) :
    firePhase fuel cutoff tnow st = st := by
  cases fuel with
  | zero => rfl
  | succ n =>
    simp only [firePhase]
    split
    · rfl
    · rw [h]
      simp [pickDue, pickMin]

/-- A timer selected by `pickMin` is one of the candidates. -/
theorem pickMin_mem : ∀ (l : List Timer) (t : Timer), pickMin l = some t → t ∈ l := by
  intro l
  induction l with
  | nil => intro t h; simp [pickMin] at h
  | cons a as ih =>
    intro t h
    simp only [pickMin] at h
    cases hm : pickMin as with
    | none => rw [hm] at h; simp at h; simp [h]
    | some u =>
      rw [hm] at h
      by_cases hlt : timerLt u a
      · simp [hlt] at h; right; exact ih t (by rw [hm, ← h])
      · simp [hlt] at h; simp [h]

/-- `setTimeout` registers exactly one one-shot timer and captures the frame
active at the call (§4.5): the stored frame is `st.frame`. -/
theorem setTimeout_captures_frame :
    ∀ (fuel : Nat) (res : Option Nat) (b : Option String) (body : List Stmt)
      (d : Nat) (st : State),
      ((execStmts (fuel + 1) res [.setTimeoutS b body d] st).1).timers
        = st.timers ++ [⟨st.nextTimerId, st.now + d, 0, body, st.frame, res, st.nextSeq⟩] := by
  intro fuel res b body d st
  cases fuel with
  | zero => cases b <;> simp [execStmts]
  | succ n => cases b <;> simp [execStmts]

/-- A fired timer callback runs under the frame captured at registration: a
callback reading context `c` logs that frame's binding, whatever the loop's
own frame is. -/
theorem timer_runs_under_captured_frame :
    ∀ (fuel c i s tnow : Nat) (F : Frame) (st : State),
      (firePhase (fuel + 1) (s + 1) tnow
          { st with result := none,
                    timers := [⟨i, tnow, 0, [.slog (.ctxGet c)], F, none, s⟩] }).logs
        = st.logs ++ [jvToString (lookupFrame F c)] := by
  intro fuel c i s tnow F st
  have hpick : pickDue (s + 1) tnow
      [(⟨i, tnow, 0, [.slog (.ctxGet c)], F, none, s⟩ : Timer)]
      = some ⟨i, tnow, 0, [.slog (.ctxGet c)], F, none, s⟩ := by
    simp [pickDue, pickMin, List.filter]
  simp only [firePhase, Option.isSome_none, Bool.false_eq_true, if_false, hpick]
  rw [execStmts_slog]
  rw [firePhase_noTimers]
  · simp [evalExpr]
  · simp

/-! ## Claim theorems -/

/-- Claim C1: running the `timers_order` handler emits the log records in
exactly the order main, microtask, promise, timeout, main 2, and the terminal
`RunResult` on the reply channel is `Response` with body "Hello world". -/
theorem c1_timers_order :
    (runRequest 100 timersOrderHandler State.init).logs
        = ["main", "microtask", "promise", "timeout", "main 2"] ∧
    (runRequest 100 timersOrderHandler State.init).result
        = some (.Response "Hello world") ∧
    (runRequest 100 timersOrderHandler State.init).sent
        = [.Response "Hello world"] := ⟨rfl, rfl, rfl⟩

/-- Claim C2: a callback scheduled while AsyncContext frame F is active runs
its synchronous body under exactly F: `setTimeout` stores the frame active at
the call, and the fired callback observes that stored frame's binding.  On the
`store.run(id++, () => setTimeout(() => console.log(store.getStore()*2), 100))`
script the two successive requests answer "2" then "4", and the timer callback
of the first request logs "2" (the value captured at registration) before the
second response. -/
theorem c2_async_context_callbacks :
    alsSt1.result = some (.Response "2") ∧
    alsSt1.logs = ["2"] ∧
    alsSt2.result = some (.Response "4") ∧
    alsSt2.logs = ["4"] ∧
    (∀ (fuel : Nat) (res : Option Nat) (b : Option String) (body : List Stmt)
        (d : Nat) (st : State),
      ((execStmts (fuel + 1) res [.setTimeoutS b body d] st).1).timers
        = st.timers ++ [⟨st.nextTimerId, st.now + d, 0, body, st.frame, res, st.nextSeq⟩]) ∧
    (∀ (fuel c i s tnow : Nat) (F : Frame) (st : State),
      (firePhase (fuel + 1) (s + 1) tnow
          { st with result := none,
                    timers := [⟨i, tnow, 0, [.slog (.ctxGet c)], F, none, s⟩] }).logs
        = st.logs ++ [jvToString (lookupFrame F c)]) :=
  ⟨rfl, rfl, rfl, rfl, setTimeout_captures_frame, timer_runs_under_captured_frame⟩

/-- Claim C3: for every request submitted to an isolate, exactly one terminal
`RunResult` is emitted on its reply channel, and the channel is closed
afterwards.  First conjunct: the records emitted are exactly the terminal
result (never two, none before settlement).  Second conjunct: every request
run with more fuel than the wall-clock budget settles — the §4.3 quota check
emits `Timeout` if the handler does not settle first — so exactly one record
is on the channel and, the sender being dropped, the first receive yields
that record and a further receive fails.  Third conjunct: concretely, the
`set_timeout` script's request yields `Response "test"` on the first receive
and a failed second receive. -/
theorem c3_one_terminal_runresult :
    (∀ (fuel : Nat) (handler : List Stmt) (st : State),
      (runRequest fuel handler st).sent = sentOf (runRequest fuel handler st).result) ∧
    (∀ (fuel : Nat) (handler : List Stmt) (st : State),
      st.deadline < fuel →
        ∃ r, (runRequest (fuel + 1) handler st).result = some r ∧
             (runRequest (fuel + 1) handler st).sent = [r] ∧
             recv (runRequest (fuel + 1) handler st) 0 = some r ∧
             recv (runRequest (fuel + 1) handler st) 1 = none) ∧
    (recv (runRequest 100 setTimeoutHandler State.init) 0 = some (.Response "test") ∧
     recv (runRequest 100 setTimeoutHandler State.init) 1 = none) := by
  refine ⟨?_, ?_, rfl, rfl⟩
  · intro fuel handler st
    exact runLoop_inv fuel _ (execStmts_inv fuel none handler _ rfl)
  · intro fuel handler st h
    have hinv : (runRequest (fuel + 1) handler st).sent
        = sentOf (runRequest (fuel + 1) handler st).result :=
      runLoop_inv _ _ (execStmts_inv _ none handler _ rfl)
    have hsome : ((runRequest (fuel + 1) handler st).result).isSome = true := by
      refine runLoop_settles fuel _ ?_
      have ht := execStmts_time (fuel + 1) none handler
        { st with frame := [], micro := [], timers := [], now := 0,
                  logs := [], result := none, sent := [] }
      rw [ht.1, ht.2]
      show st.deadline < 0 + fuel
      omega
    obtain ⟨r, hr⟩ := Option.isSome_iff_exists.mp hsome
    have hs : (runRequest (fuel + 1) handler st).sent = [r] := by
      rw [hinv, hr]; rfl
    refine ⟨r, hr, hs, ?_, ?_⟩
    · simp [recv, hs]
    · simp [recv, hs]

/-- Witness for C3: on the empty-response handler with fuel 1002 (exceeding
the 1000ms budget of `State.init`), exactly one terminal result is on the
reply channel and a second receive fails. -/
theorem c3_one_terminal_runresult_witness :
    State.init.deadline < 1001 ∧
    ∃ r, (runRequest 1002 emptyRespHandler State.init).result = some r ∧
         (runRequest 1002 emptyRespHandler State.init).sent = [r] ∧
         recv (runRequest 1002 emptyRespHandler State.init) 0 = some r ∧
         recv (runRequest 1002 emptyRespHandler State.init) 1 = none :=
  ⟨by decide,
    (c3_one_terminal_runresult.2.1) 1001 emptyRespHandler State.init (by decide)⟩

/-- Claim C4: `clearTimeout(id)` removes exactly the timer with that id from
the timer queue (every other timer survives), so the `set_timeout_clear`
script answers "second" after clearing the first timer, and the
`set_timeout_clear_correct` script answers "first" after clearing the
second. -/
theorem c4_clear_timeout :
    (∀ (n : Int) (ts : List Timer) (t : Timer),
      t ∈ clearTimerFn n ts ↔ t ∈ ts ∧ (t.id : Int) ≠ n) ∧
    (runRequest 100 setTimeoutClearHandler State.init).result
      = some (.Response "second") ∧
    (runRequest 100 setTimeoutClearCorrectHandler State.init).result
      = some (.Response "first") := by
  refine ⟨?_, rfl, rfl⟩
  intro n ts t
  simp [clearTimerFn, List.mem_filter]

/-- Claim C5: nested `ctx.run` shadows and restores bindings: both nesting
test scripts pass all their `ctx.get()` checks (inner value inside the inner
run, outer value after it, `undefined` after the outer run, and independence
of distinct contexts), answering `Response("")` rather than a thrown error;
moreover `ctx.run` always restores the caller's frame on exit. -/
theorem c5_nested_run :
    runIsolate 100 nestingInit emptyRespHandler = some (.Response "") ∧
    runIsolate 100 nestingDiffInit emptyRespHandler = some (.Response "") ∧
    (∀ (fuel : Nat) (res : Option Nat) (b : Option String) (c : Nat) (ve : Expr)
        (body : List Stmt) (re : Expr) (st : State),
      ((execStmts (fuel + 1) res [.ctxRun b c ve body re] st).1).frame = st.frame) := by
  refine ⟨rfl, rfl, ?_⟩
  intro fuel res b c ve body re st
  simp only [execStmts]
  rcases hr : execStmts fuel res body
      { st with frame := (c, evalExpr st.frame st.vars ve) :: st.frame } with ⟨st1, stopped⟩
  cases stopped with
  | true => simp [hr]
  | false =>
    cases fuel with
    | zero => simp [hr, execStmts]
    | succ m => simp [hr, execStmts]

/-- Claim C6: `queueMicrotask(true)` at line 2, column 5 of the handler makes
the request settle with `Error` whose message is exactly
"Uncaught TypeError: Parameter 1 is not of type 'Function'" followed by the
frame "  at handler (2:5)"; the `Response` on the following line is never
emitted. -/
theorem c6_queue_microtask_type_error :
    (runRequest 100 queueMicrotaskThrowHandler State.init).result
      = some (.Error ("Uncaught TypeError: Parameter 1 is not of type 'Function'" ++
          "\n  at handler (2:5)")) ∧
    (runRequest 100 queueMicrotaskThrowHandler State.init).sent
      = [.Error ("Uncaught TypeError: Parameter 1 is not of type 'Function'" ++
          "\n  at handler (2:5)")] := ⟨rfl, rfl⟩

/-- Claim C7: the `set_interval` script observes its interval firings in order
(interval 1, interval 2, interval 3) and, because `clearInterval` inside the
third firing removes the re-armed timer, no further firing occurs before
"res" and the "Hello world" response; and a firing phase only ever selects
timers already present when the tick began (`seq` below the cutoff), so an
interval fires at most once per tick. -/
theorem c7_set_interval :
    (runRequest 200 setIntervalHandler State.init).logs
        = ["interval 1", "interval 2", "interval 3", "res"] ∧
    (runRequest 200 setIntervalHandler State.init).result
        = some (.Response "Hello world") ∧
    (∀ (cutoff tnow : Nat) (ts : List Timer),
      (pickDue cutoff tnow ts).elim True
        (fun t => t ∈ ts ∧ t.due ≤ tnow ∧ t.seq < cutoff)) := by
  refine ⟨rfl, rfl, ?_⟩
  intro cutoff tnow ts
  cases h : pickDue cutoff tnow ts with
  | none => trivial
  | some t =>
    have hmem := pickMin_mem _ _ h
    simp only [List.mem_filter] at hmem
    obtain ⟨h1, h2⟩ := hmem
    simp only [Bool.and_eq_true, decide_eq_true_eq] at h2
    exact ⟨h1, h2.1, h2.2⟩

/-- Claim C8: for a request whose path matches no asset and is not
/favicon.ico, `handle_request` submits it to the isolate with
`x-forwarded-for` set to the client IP and `x-lagon-region` set to "local". -/
theorem c8_front_end_headers (url ip : String) (assets : List String) (req : HttpRequest)
    (h1 : find_asset url assets = false) (h2 : url ≠ FAVICON_URL) :
    handle_request url ip assets (some req)
      = .isolate (set_header (set_header req X_FORWARDED_FOR ip) X_LAGON_REGION LOCAL_REGION) ∧
    get_header (set_header (set_header req X_FORWARDED_FOR ip) X_LAGON_REGION LOCAL_REGION)
        X_FORWARDED_FOR = some ip ∧
    get_header (set_header (set_header req X_FORWARDED_FOR ip) X_LAGON_REGION LOCAL_REGION)
        X_LAGON_REGION = some LOCAL_REGION := by
  refine ⟨?_, ?_, ?_⟩
  · simp [handle_request, h1, h2]
  · simp [get_header, set_header, X_FORWARDED_FOR, X_LAGON_REGION, List.find?]
  · simp [get_header, set_header, X_FORWARDED_FOR, X_LAGON_REGION, List.find?]

/-- Witness for C8: the concrete request "/hello" from 127.0.0.1 with an empty
asset manifest is dispatched to the isolate with both headers injected. -/
theorem c8_front_end_headers_witness :
    find_asset "/hello" [] = false ∧ "/hello" ≠ FAVICON_URL ∧
    (handle_request "/hello" "127.0.0.1" [] (some ⟨[]⟩)
      = .isolate (set_header (set_header ⟨[]⟩ X_FORWARDED_FOR "127.0.0.1")
          X_LAGON_REGION LOCAL_REGION) ∧
    get_header (set_header (set_header ⟨[]⟩ X_FORWARDED_FOR "127.0.0.1")
        X_LAGON_REGION LOCAL_REGION) X_FORWARDED_FOR = some "127.0.0.1" ∧
    get_header (set_header (set_header ⟨[]⟩ X_FORWARDED_FOR "127.0.0.1")
        X_LAGON_REGION LOCAL_REGION) X_LAGON_REGION = some LOCAL_REGION) :=
  ⟨by decide, by decide,
    c8_front_end_headers "/hello" "127.0.0.1" [] ⟨[]⟩ (by decide) (by decide)⟩

/-- Claim C9: `ctx.run(value, fn)` returns exactly the value `fn` returns:
for a pure `fn` returning the variable `y`, the binder receives precisely the
value of `y` (identity included, objects compare by identity tag), and the
`return_value` test script passes its `actual !== expected` check. -/
theorem c9_ctx_run_return_value :
    runIsolate 100 returnValueInit emptyRespHandler = some (.Response "") ∧
    (∀ (fuel : Nat) (res : Option Nat) (x : String) (c : Nat) (ve : Expr)
        (y : String) (st : State),
      lookupVar ((execStmts (fuel + 2) res [.ctxRun (some x) c ve [] (.evar y)] st).1).vars x
        = lookupVar st.vars y) := by
  refine ⟨rfl, ?_⟩
  intro fuel res x c ve y st
  simp [execStmts, evalExpr, lookupVar]

/-- Claim C10: a handler returning a non-streaming `Response` with a timer
still pending is answered without waiting for the timer, and the pending
callback never runs afterwards: the logs are exactly before, after — "done"
is never emitted — and the event loop stops as soon as the terminal result is
set. -/
theorem c10_response_not_blocked :
    (runRequest 100 notBlockingHandler State.init).logs = ["before", "after"] ∧
    (runRequest 100 notBlockingHandler State.init).result = some (.Response "Hello!") ∧
    "done" ∉ (runRequest 100 notBlockingHandler State.init).logs ∧
    (∀ (fuel : Nat) (r : RunResult) (st : State),
      runLoop fuel { st with result := some r } = { st with result := some r }) := by
  refine ⟨rfl, rfl, by decide, ?_⟩
  intro fuel r st
  cases fuel with
  | zero => rfl
  | succ n => simp [runLoop]

end Lagon
